import Mathlib

/-!
Shallow embedding of the grid controller in `src/opal/assets/js/opal.js`
(the `TableCtrl` AngularJS controller), together with proofs about the
claims on its data model, keyboard state machine and CRUD synchronization.

Modelling conventions:
- JS numbers used as indices are modelled as `Int` (the source decrements
  and compares them with guards; all guards are preserved verbatim).
- A JS object used as a grid item is modelled by the `Item` structure;
  object properties that the controller never reads are collapsed into the
  opaque `data` field.  Reading a missing property yields `Option.none`.
- A row object is its `id` property plus an association list from property
  name to item list (after normalization every column property is a list).
- Code that would raise a JS exception (`TypeError` on indexing into
  `undefined`, the `throw` in `getRowIxFromPatientId`) is modelled with
  `Except String`; the error string names the JS error.
- `$http` calls are recorded as emitted requests; a success callback is a
  separate function applied to a later state, mirroring the asynchronous
  event loop (a callback never runs between two synchronous statements).
- `clone` performs a deep copy in the source; on immutable Lean values it
  is the identity.
-/

/-- Models a grid item: one JSON object stored in a column of a row.
`id` is the server assigned identifier (absent on the add placeholder and
on not yet created items), `patient` is the owning patient id (present on
the add placeholder), `category`/`hospital`/`ward`/`bed` are the location
properties read by the row ordering, and `data` stands for all remaining
properties, which the controller never inspects. -/
structure Item where
  id : Option Nat := none
  patient : Option Nat := none
  category : String := ""
  hospital : String := ""
  ward : String := ""
  bed : String := ""
  data : String := ""
deriving Repr, DecidableEq

/-- Models one entry of the schema `columns` payload: a name and the
`single` flag (one value per patient versus an ordered list). -/
structure Column where
  name : String
  single : Bool
deriving Repr, DecidableEq

/-- Models a patient row after load normalization: the `id` property and
an association list from column name to the stored item list.  A name
missing from the list models a missing JS property (`undefined`). -/
structure Row where
  id : Nat
  fields : List (String × List Item)
deriving Repr, DecidableEq

/-- Models reading `l[i]` on a JS array with a possibly negative index:
a negative or out of range index yields `undefined` (`none`). -/
def jsIndex (l : List α) (i : Int) : Option α :=
  if i < 0 then none else l[i.toNat]?

/-- Models the assignment `l[i] = a` on a JS array for an index that is in
range.  (For a negative index JS stores a non array property and the array
contents are unchanged; `List.set` ignores an out of range index, while JS
would grow a sparse array — no claim exercises that case.) -/
def jsSetElem (l : List α) (i : Int) (a : α) : List α :=
  if i < 0 then l else l.set i.toNat a

/-- Models property update `obj[name] = items` on a row object: replace
the first binding of `name`, or append a fresh binding. -/
def setField (fs : List (String × List Item)) (name : String) (items : List Item) :
    List (String × List Item) :=
  match fs with
  | [] => [(name, items)]
  | (k, v) :: rest =>
    if k = name then (k, items) :: rest else (k, v) :: setField rest name items

/-! ### The row ordering

`ORDERING = '[location[0].category, location[0].hospital, location[0].ward,
location[0].bed]'` and `$filter('orderBy')` sort the rows ascending by
that key, comparing strings lexicographically.  The AngularJS `orderBy`
filter is third party library code (not part of this repository); it is
modelled as a stable ascending comparison sort — insertion sort — over a
lexicographic comparison of the four key strings, with string comparison
modelled as code point lexicographic order on the character lists. -/

/-- Three way comparison of naturals. -/
def natCmp (x y : Nat) : Ordering :=
  if x < y then .lt else if y < x then .gt else .eq

/-- Lexicographic lifting of a three way comparison to lists. -/
def lexCmp (cmp : α → α → Ordering) : List α → List α → Ordering
  | [], [] => .eq
  | [], _ :: _ => .lt
  | _ :: _, [] => .gt
  | x :: xs, y :: ys =>
    match cmp x y with
    | .eq => lexCmp cmp xs ys
    | o => o

theorem natCmp_eq_imp {x y : Nat} (h : natCmp x y = .eq) : x = y := by
  unfold natCmp at h
  split at h
  · simp at h
  · split at h
    · simp at h
    · omega

theorem natCmp_swap (x y : Nat) : natCmp y x = (natCmp x y).swap := by
  unfold natCmp
  rcases Nat.lt_trichotomy x y with h | h | h <;>
    simp [h, Nat.lt_asymm, Ordering.swap] <;> omega

theorem natCmp_lt_trans {x y z : Nat} (h1 : natCmp x y = .lt) (h2 : natCmp y z = .lt) :
    natCmp x z = .lt := by
  unfold natCmp at *
  split at h1 <;> split at h2 <;> simp_all <;> omega

theorem lexCmp_eq_imp {cmp : α → α → Ordering}
    (hc : ∀ x y, cmp x y = .eq → x = y) :
    ∀ {a b : List α}, lexCmp cmp a b = .eq → a = b := by
  intro a
  induction a with
  | nil => intro b h; cases b with
    | nil => rfl
    | cons y ys => simp [lexCmp] at h
  | cons x xs ih =>
    intro b h
    cases b with
    | nil => simp [lexCmp] at h
    | cons y ys =>
      simp only [lexCmp] at h
      cases hxy : cmp x y with
      | eq => rw [hxy] at h; rw [hc x y hxy, ih h]
      | lt => rw [hxy] at h; simp at h
      | gt => rw [hxy] at h; simp at h

theorem lexCmp_cons_lt {cmp : α → α → Ordering} {x y : α} {xs ys : List α} :
    lexCmp cmp (x :: xs) (y :: ys) = .lt ↔
      (cmp x y = .lt ∨ (cmp x y = .eq ∧ lexCmp cmp xs ys = .lt)) := by
  simp only [lexCmp]
  cases cmp x y <;> simp

theorem lexCmp_swap {cmp : α → α → Ordering}
    (hs : ∀ x y, cmp y x = (cmp x y).swap) :
    ∀ (a b : List α), lexCmp cmp b a = (lexCmp cmp a b).swap := by
  intro a
  induction a with
  | nil => intro b; cases b <;> simp [lexCmp, Ordering.swap]
  | cons x xs ih =>
    intro b
    cases b with
    | nil => simp [lexCmp, Ordering.swap]
    | cons y ys =>
      simp only [lexCmp, hs x y]
      cases cmp x y <;> simp [Ordering.swap, ih ys]

theorem lexCmp_lt_trans {cmp : α → α → Ordering}
    (hc : ∀ x y, cmp x y = .eq → x = y)
    (ht : ∀ x y z, cmp x y = .lt → cmp y z = .lt → cmp x z = .lt) :
    ∀ {a b c : List α}, lexCmp cmp a b = .lt → lexCmp cmp b c = .lt →
      lexCmp cmp a c = .lt := by
  intro a
  induction a with
  | nil =>
    intro b c h1 h2
    cases b with
    | nil => exact h2
    | cons y ys =>
      cases c with
      | nil => simp [lexCmp] at h2
      | cons z zs => simp [lexCmp]
  | cons x xs ih =>
    intro b c h1 h2
    cases b with
    | nil => simp [lexCmp] at h1
    | cons y ys =>
      cases c with
      | nil => simp [lexCmp] at h2
      | cons z zs =>
        rw [lexCmp_cons_lt] at h1 h2 ⊢
        rcases h1 with h1 | ⟨h1e, h1r⟩
        · rcases h2 with h2 | ⟨h2e, h2r⟩
          · exact Or.inl (ht x y z h1 h2)
          · rcases hc y z h2e
            exact Or.inl h1
        · rcases hc x y h1e
          rcases h2 with h2 | ⟨h2e, h2r⟩
          · exact Or.inl h2
          · exact Or.inr ⟨h2e, ih h1r h2r⟩

/-- Code point list of a string, the basis of the modelled string order. -/
def strCodes (s : String) : List Nat :=
  s.data.map Char.toNat

/-- Three way comparison of strings, code point lexicographic. -/
def strCmp (a b : String) : Ordering :=
  lexCmp natCmp (strCodes a) (strCodes b)

/-- Models evaluating the `ORDERING` expression on a row: the tuple
`(location[0].category, location[0].hospital, location[0].ward,
location[0].bed)`, encoded as the list of the four code point lists.
A missing or empty `location` column yields empty keys (the AngularJS
expression evaluator silently yields `undefined` there). -/
def rowKey (r : Row) : List (List Nat) :=
  match r.fields.lookup "location" with
  | some (loc :: _) =>
    [strCodes loc.category, strCodes loc.hospital, strCodes loc.ward, strCodes loc.bed]
  | _ => [[], [], [], []]

/-- Three way comparison of two row keys, lexicographic in the four
components. -/
def keyCmp : List (List Nat) → List (List Nat) → Ordering :=
  lexCmp (lexCmp natCmp)

/-- The row order enforced by the grid: ascending by `rowKey`. -/
def rowLE (a b : Row) : Prop :=
  keyCmp (rowKey a) (rowKey b) ≠ .gt

instance : DecidableRel rowLE := fun a b =>
  inferInstanceAs (Decidable (keyCmp (rowKey a) (rowKey b) ≠ .gt))

theorem keyCmp_eq_imp {a b : List (List Nat)} (h : keyCmp a b = .eq) : a = b :=
  lexCmp_eq_imp (fun _ _ hx => lexCmp_eq_imp (fun _ _ hn => natCmp_eq_imp hn) hx) h

theorem keyCmp_swap (a b : List (List Nat)) : keyCmp b a = (keyCmp a b).swap :=
  lexCmp_swap (fun x y => lexCmp_swap natCmp_swap x y) a b

theorem keyCmp_lt_trans {a b c : List (List Nat)}
    (h1 : keyCmp a b = .lt) (h2 : keyCmp b c = .lt) : keyCmp a c = .lt :=
  lexCmp_lt_trans
    (fun _ _ hx => lexCmp_eq_imp (fun _ _ hn => natCmp_eq_imp hn) hx)
    (fun _ _ _ hx hy =>
      lexCmp_lt_trans (fun _ _ hn => natCmp_eq_imp hn)
        (fun _ _ _ ha hb => natCmp_lt_trans ha hb) hx hy)
    h1 h2

instance : IsTotal Row rowLE := by
  constructor
  intro a b
  by_cases h : keyCmp (rowKey a) (rowKey b) = .gt
  · right
    have hs := keyCmp_swap (rowKey a) (rowKey b)
    rw [h] at hs
    intro hcontra
    rw [hs] at hcontra
    simp [Ordering.swap] at hcontra
  · left
    exact h

instance : IsTrans Row rowLE := by
  constructor
  intro a b c hab hbc
  unfold rowLE at *
  intro hac
  cases h1 : keyCmp (rowKey a) (rowKey b) with
  | gt => exact hab h1
  | eq => rw [keyCmp_eq_imp h1] at hac; exact hbc hac
  | lt =>
    cases h2 : keyCmp (rowKey b) (rowKey c) with
    | gt => exact hbc h2
    | eq =>
      rw [← keyCmp_eq_imp h2] at hac
      rw [h1] at hac
      simp at hac
    | lt => rw [keyCmp_lt_trans h1 h2] at hac; simp at hac

/-- Models `$filter('orderBy')(rows, ORDERING)`: a stable ascending sort
of the rows by `rowKey`. -/
def orderByOrdering (rows : List Row) : List Row :=
  List.insertionSort rowLE rows

theorem orderByOrdering_sorted (rows : List Row) :
    List.Sorted rowLE (orderByOrdering rows) :=
  List.sorted_insertionSort rowLE rows

theorem orderByOrdering_perm (rows : List Row) :
    (orderByOrdering rows).Perm rows :=
  List.perm_insertionSort rowLE rows

/-! ### Controller state -/

/-- Models the `state` variable of the controller: one of the four
interaction modes. -/
inductive Mode
  | normal
  | adding
  | editing
  | deleting
deriving Repr, DecidableEq

/-- Models the mutable controller state on `$scope` (plus the local
`state` variable): the loaded rows and columns, the keyboard cursor
`(rix, cix, iix)`, the interaction mode, the `editing` working copy and
the currently shown modal dialog (by element id, `none` when hidden). -/
structure GridState where
  rows : List Row
  columns : List Column
  rix : Int
  cix : Int
  iix : Int
  state : Mode
  editing : Item
  modal : Option String
deriving Repr, DecidableEq

/-- Models an emitted `$http` request (method and url; deletes and puts
are fire and forget, posts carry a success callback modelled separately). -/
inductive Req
  | post (url : String)
  | put (url : String)
  | del (url : String)
deriving Repr, DecidableEq

/-- Models `clone`: a deep copy, which on immutable values is the
identity. -/
def clone (i : Item) : Item := i

/-- Models `getRowIxFromPatientId`.  The loop returns the index of the
first row whose `id` equals `patientId`.  When no row matches, the source
executes `throw 'Could not find row for patient ' + patient.id` — but
`patient` is not a name in scope there (the parameter is `patientId`), so
evaluating the message expression itself aborts with a `ReferenceError`
instead of the intended descriptive message. -/
def getRowIxFromPatientId (rows : List Row) (patientId : Nat) : Except String Nat :=
  match rows.findIdx? (fun r => r.id == patientId) with
  | some rix => .ok rix
  | none => .error "ReferenceError: patient is not defined"

/-- Models `getNumItems(rix, cix)`, which evaluates
`$scope.rows[rix][column.name].length` with `column = $scope.columns[cix]`.
An undefined column, row or column property raises a `TypeError`. -/
def getNumItems (s : GridState) (rix cix : Int) : Except String Nat :=
  match jsIndex s.columns cix with
  | none => .error "TypeError: column is undefined"
  | some column =>
    match jsIndex s.rows rix with
    | none => .error "TypeError: row is undefined"
    | some row =>
      match row.fields.lookup column.name with
      | none => .error "TypeError: column property is undefined"
      | some items => .ok items.length

/-- Models `isSingleColumn(cix)`. -/
def isSingleColumn (s : GridState) (cix : Int) : Except String Bool :=
  match jsIndex s.columns cix with
  | none => .error "TypeError: column is undefined"
  | some c => .ok c.single

/-- Models `getColumnName(cix)`. -/
def getColumnName (s : GridState) (cix : Int) : Except String String :=
  match jsIndex s.columns cix with
  | none => .error "TypeError: column is undefined"
  | some c => .ok c.name

/-- Models `getCurrentColumnName()`.  The source declares a `cix`
parameter but reads `$scope.cix` regardless; callers pass no argument. -/
def getCurrentColumnName (s : GridState) : Except String String :=
  getColumnName s s.cix

/-- Models `getItem(rix, cix, iix)`.  An out of range item index is
modelled as an error; in JS the expression yields `undefined` without
throwing, but every use in the claims reads an in range index. -/
def getItem (s : GridState) (rix cix iix : Int) : Except String Item := do
  let columnName ← getColumnName s cix
  match jsIndex s.rows rix with
  | none => .error "TypeError: row is undefined"
  | some row =>
    match row.fields.lookup columnName with
    | none => .error "TypeError: column property is undefined"
    | some items =>
      match jsIndex items iix with
      | none => .error "undefined item"
      | some item => .ok item

/-- Models `getCurrentItem()`. -/
def getCurrentItem (s : GridState) : Except String Item :=
  getItem s s.rix s.cix s.iix

/-! ### Interaction handlers -/

/-- Models `startEdit`: enter `editing`, capture a working copy of the
current item and open the column modal.  (The source sets the mode before
reading the item; an error while reading would leave the mode flipped —
every use in the claims reads an in range item, where no error occurs.) -/
def startEdit (s : GridState) : Except String GridState := do
  let item ← getCurrentItem s
  let name ← getCurrentColumnName s
  .ok { s with state := .editing, editing := clone item, modal := some (name ++ "-modal") }

/-- Models `startDelete`: refuse on a single valued column and on the
trailing item (the add placeholder); otherwise enter `deleting` and open
the confirmation modal. -/
def startDelete (s : GridState) : Except String GridState := do
  let single ← isSingleColumn s s.cix
  if single then
    .ok s
  else do
    let n ← getNumItems s s.rix s.cix
    if (n : Int) = s.iix + 1 then
      .ok s
    else
      .ok { s with state := .deleting, modal := some "delete-confirmation" }

/-- Models `$scope.startAdd`: enter `adding` and open the add modal.  The
working copy is the blank template `(location: (), demographics: ())`,
whose contents the controller never reads back (only the server response
is used on success); it is modelled as a blank item. -/
def startAdd (s : GridState) : GridState :=
  { s with state := .adding, editing := {}, modal := some "add-new-modal" }

/-- Models `$scope.cancelAdd`: back to `normal`, hide the add modal. -/
def cancelAdd (s : GridState) : GridState :=
  { s with state := .normal, modal := none }

/-- Models `$scope.cancelEdit`: back to `normal`, hide the column modal
(the modal id is recomputed from `$scope.cix`). -/
def cancelEdit (s : GridState) : Except String GridState := do
  let _ ← getCurrentColumnName s
  .ok { s with state := .normal, modal := none }

/-- Models `$scope.cancelDelete`: back to `normal`.  The source does not
hide the confirmation modal here (the dialog dismisses itself). -/
def cancelDelete (s : GridState) : GridState :=
  { s with state := .normal }

/-- Models `$scope.selectItem`. -/
def selectItem (s : GridState) (rix cix iix : Int) : GridState :=
  { s with rix := rix, cix := cix, iix := iix }

/-! ### Keyboard navigation -/

/-- Models `goLeft`: move to the previous column when one exists,
resetting the item index. -/
def goLeft (s : GridState) : GridState :=
  if s.cix > 0 then { s with cix := s.cix - 1, iix := 0 } else s

/-- Models `goRight`: move to the next column when one exists, resetting
the item index. -/
def goRight (s : GridState) : GridState :=
  if s.cix < (s.columns.length : Int) - 1 then { s with cix := s.cix + 1, iix := 0 } else s

/-- Models `goUp`: move up within the item list, or to the last item of
the same column in the previous row. -/
def goUp (s : GridState) : Except String GridState :=
  if s.iix > 0 then
    .ok { s with iix := s.iix - 1 }
  else if s.rix > 0 then do
    let n ← getNumItems s (s.rix - 1) s.cix
    .ok { s with rix := s.rix - 1, iix := (n : Int) - 1 }
  else
    .ok s

/-- Models `goDown`: move down within the item list, or to the first item
of the same column in the next row.  Note the guard itself evaluates
`getNumItems` on the current cursor cell. -/
def goDown (s : GridState) : Except String GridState := do
  let n ← getNumItems s s.rix s.cix
  if s.iix < (n : Int) - 1 then
    .ok { s with iix := s.iix + 1 }
  else if s.rix < (s.rows.length : Int) - 1 then
    .ok { s with rix := s.rix + 1, iix := 0 }
  else
    .ok s

/-- Models `handleKeypressNormal`, dispatching on `e.keyCode`.  Key 8
(backspace) prevents the default action and falls through to the delete
case. -/
def handleKeypressNormal (s : GridState) (keyCode : Nat) : Except String GridState :=
  if keyCode = 37 ∨ keyCode = 72 then .ok (goLeft s)
  else if keyCode = 39 ∨ keyCode = 76 then .ok (goRight s)
  else if keyCode = 38 ∨ keyCode = 75 then goUp s
  else if keyCode = 40 ∨ keyCode = 74 then goDown s
  else if keyCode = 13 then startEdit s
  else if keyCode = 8 ∨ keyCode = 46 then startDelete s
  else .ok s

/-- Models `handleKeypressAdd`: only escape acts. -/
def handleKeypressAdd (s : GridState) (keyCode : Nat) : GridState :=
  if keyCode = 27 then cancelAdd s else s

/-- Models `handleKeypressEdit`: only escape acts. -/
def handleKeypressEdit (s : GridState) (keyCode : Nat) : Except String GridState :=
  if keyCode = 27 then cancelEdit s else .ok s

/-- Models `handleKeypressDelete`: only escape acts. -/
def handleKeypressDelete (s : GridState) (keyCode : Nat) : GridState :=
  if keyCode = 27 then cancelDelete s else s

/-- Models `$scope.keypress`: dispatch on the interaction mode. -/
def keypress (s : GridState) (keyCode : Nat) : Except String GridState :=
  match s.state with
  | .adding => .ok (handleKeypressAdd s keyCode)
  | .editing => handleKeypressEdit s keyCode
  | .deleting => .ok (handleKeypressDelete s keyCode)
  | .normal => handleKeypressNormal s keyCode

/-- Iterates `handleKeypressNormal` over a sequence of key codes. -/
def runKeys (s : GridState) (keys : List Nat) : Except String GridState :=
  match keys with
  | [] => .ok s
  | k :: rest => do
    let s1 ← handleKeypressNormal s k
    runKeys s1 rest

/-! ### Load normalization -/

/-- Models the dynamic value of a column property in a fetched JSON row:
either a scalar object (single valued columns) or an array (multi valued
columns). -/
inductive JVal
  | scalar (item : Item)
  | array (items : List Item)
deriving Repr, DecidableEq

/-- Models a fetched patient row before normalization: the `id` property
and the raw column properties. -/
structure RawRow where
  id : Nat
  fields : List (String × JVal)
deriving Repr, DecidableEq

/-- The add placeholder appended to multi valued columns:
`(patient: <id>)`. -/
def addItem (pid : Nat) : Item :=
  { patient := some pid }

/-- Normalizes one column property of one fetched row, mirroring the body
of the nested load loop: a single valued column wraps its scalar into a
one element array; a multi valued column pushes the add placeholder.
Pushing onto a scalar raises a `TypeError` in JS; wrapping an array (a
shape the server never sends for a single column) would nest it into an
unusable value and is likewise rejected here. -/
def normalizeField (single : Bool) (pid : Nat) (v : JVal) : Except String (List Item) :=
  if single then
    match v with
    | .scalar i => .ok [i]
    | .array _ => .error "shape: single column holds an array"
  else
    match v with
    | .array items => .ok (items ++ [addItem pid])
    | .scalar _ => .error "TypeError: push is not a function"

/-- Normalizes every column property of one fetched row (the inner load
loop).  Distinct column names touch distinct properties; the result keeps
the schema order of the columns. -/
def normalizeFields (columns : List Column) (r : RawRow) :
    Except String (List (String × List Item)) :=
  match columns with
  | [] => .ok []
  | c :: rest => do
    let v ← (match r.fields.lookup c.name with
      | none => Except.error "TypeError: column property is undefined"
      | some v => Except.ok v)
    let items ← normalizeField c.single r.id v
    let tail ← normalizeFields rest r
    .ok ((c.name, items) :: tail)

/-- Normalizes one fetched row. -/
def normalizeRow (columns : List Column) (r : RawRow) : Except String Row := do
  let fields ← normalizeFields columns r
  .ok { id := r.id, fields := fields }

/-- Normalizes a list of fetched rows (the outer load loop). -/
def normalizeRows (columns : List Column) (raws : List RawRow) :
    Except String (List Row) :=
  match raws with
  | [] => .ok []
  | r :: rest => do
    let row ← normalizeRow columns r
    let tail ← normalizeRows columns rest
    .ok (row :: tail)

/-- Models the `patient/` load success handler: normalize every row and
column, then sort by the fixed ordering. -/
def loadPatients (columns : List Column) (raws : List RawRow) :
    Except String (List Row) := do
  let rows ← normalizeRows columns raws
  .ok (orderByOrdering rows)

/-! ### CRUD synchronization -/

/-- Replaces the column property `name` of the row at `rix` (the in place
mutation of a row object reached through `$scope.rows`). -/
def updateRowFields (rows : List Row) (rix : Int) (name : String)
    (items : List Item) : List Row :=
  match jsIndex rows rix with
  | none => rows
  | some row => jsSetElem rows rix { row with fields := setField row.fields name items }

/-- Models the synchronous part of `$scope.saveAdd`: back to `normal`,
hide the add modal, post the working copy to the collection endpoint.
The success callback is `saveAddSuccess`. -/
def saveAdd (s : GridState) : GridState × List Req :=
  ({ s with state := .normal, modal := none }, [.post "patient/"])

/-- Normalizes the created patient returned by the server (the loop in the
`saveAdd` success callback): single valued columns wrap their scalar;
multi valued columns are overwritten with a fresh one element placeholder
array, whatever the server sent. -/
def normalizeNewPatient (columns : List Column) (p : RawRow) :
    Except String (List (String × List Item)) :=
  match columns with
  | [] => .ok []
  | c :: rest => do
    let items ←
      if c.single then
        match p.fields.lookup c.name with
        | some (.scalar i) => Except.ok [i]
        | some (.array _) => Except.error "shape: single column holds an array"
        | none => Except.error "shape: single column property is undefined"
      else
        Except.ok [addItem p.id]
    let tail ← normalizeNewPatient rest p
    .ok ((c.name, items) :: tail)

/-- Models the success callback of the `saveAdd` post: normalize the
returned record, push it, re-sort, and select the first cell of the new
patient row. -/
def saveAddSuccess (s : GridState) (patient : RawRow) : Except String GridState := do
  let fields ← normalizeNewPatient s.columns patient
  let rows1 := s.rows ++ [{ id := patient.id, fields := fields : Row }]
  let rows2 := orderByOrdering rows1
  let ix ← getRowIxFromPatientId rows2 patient.id
  .ok (selectItem { s with rows := rows2 } (ix : Int) 0 0)

/-- Result of the synchronous part of `$scope.saveEdit`: the new state,
the emitted requests, and — when the post of a new multi valued item was
issued — the data captured by its success callback (patient id and column
name). -/
structure SaveEditOut where
  state : GridState
  reqs : List Req
  pendingCreate : Option (Nat × String)
deriving Repr, DecidableEq

/-- Models the synchronous part of `$scope.saveEdit`: commit the working
copy into the current item slot, return to `normal`, hide the modal, then
dispatch: single valued columns put to the column url (re-sorting and
re-selecting when the column is `location`); a multi valued item without
an id posts to the column url (callback `createSuccess`); one with an id
puts to the item url. -/
def saveEdit (s : GridState) : Except String SaveEditOut := do
  let columnName ← getCurrentColumnName s
  let row ← (match jsIndex s.rows s.rix with
    | none => Except.error "TypeError: row is undefined"
    | some row => Except.ok row)
  let patientId := row.id
  let url := "patient/" ++ toString patientId ++ "/" ++ columnName ++ "/"
  let items ← (match row.fields.lookup columnName with
    | none => Except.error "TypeError: column property is undefined"
    | some items => Except.ok items)
  let items1 := jsSetElem items s.iix (clone s.editing)
  let s1 : GridState :=
    { s with
        state := .normal
        modal := none
        rows := updateRowFields s.rows s.rix columnName items1 }
  let single ← isSingleColumn s1 s.cix
  if single then
    if columnName = "location" then do
      let rows2 := orderByOrdering s1.rows
      let ix ← getRowIxFromPatientId rows2 patientId
      .ok { state := selectItem { s1 with rows := rows2 } (ix : Int) s.cix 0,
            reqs := [.put url], pendingCreate := none }
    else
      .ok { state := s1, reqs := [.put url], pendingCreate := none }
  else
    match s.editing.id with
    | none =>
      .ok { state := s1, reqs := [.post url], pendingCreate := some (patientId, columnName) }
    | some itemId =>
      .ok { state := s1, reqs := [.put (url ++ toString itemId ++ "/")],
            pendingCreate := none }

/-- Models the success callback of the post issued by `saveEdit` for a new
multi valued item: `items[$scope.iix].id = item.id` followed by
`items.push(patient: patientId)`.  The callback closes over the items
array of the row it was issued for and over `patientId`; `$scope.iix` is
read when the response arrives.  The captured array is located through
the first row whose `id` is `patientId` (the same object, whatever its
position after re-sorts); when that row is gone the mutation touches an
unreachable array and the grid is unchanged. -/
def createSuccess (s : GridState) (patientId : Nat) (columnName : String)
    (serverId : Nat) : Except String GridState :=
  match s.rows.findIdx? (fun r => r.id == patientId) with
  | none => .ok s
  | some rix =>
    match s.rows[rix]? with
    | none => .ok s
    | some row =>
      match row.fields.lookup columnName with
      | none => .error "TypeError: column property is undefined"
      | some items =>
        match jsIndex items s.iix with
        | none => .error "TypeError: cannot set a property of undefined"
        | some item =>
          let items1 := jsSetElem items s.iix { item with id := some serverId }
            ++ [addItem patientId]
          .ok { s with rows := updateRowFields s.rows (rix : Int) columnName items1 }

/-- Models `$scope.saveEditAndAdd`: commit the current edit, move the item
index to the last item of the current cell — counted in the synchronous
state, before any pending create callback has run — and re-enter editing
on that item. -/
def saveEditAndAdd (s : GridState) : Except String SaveEditOut := do
  let out ← saveEdit s
  let n ← getNumItems out.state out.state.rix out.state.cix
  let s2 := { out.state with iix := (n : Int) - 1 }
  let s3 ← startEdit s2
  .ok { out with state := s3 }

/-- Models `$scope.doDelete`: delete the item url, splice the item out of
the local sequence, back to `normal`. -/
def doDelete (s : GridState) : Except String (GridState × List Req) := do
  let row ← (match jsIndex s.rows s.rix with
    | none => Except.error "TypeError: row is undefined"
    | some row => Except.ok row)
  let columnName ← getCurrentColumnName s
  let items ← (match row.fields.lookup columnName with
    | none => Except.error "TypeError: column property is undefined"
    | some items => Except.ok items)
  let itemId ← (match jsIndex items s.iix with
    | none => Except.error "TypeError: item is undefined"
    | some item =>
      match item.id with
      | none => Except.error "undefined id"
      | some i => Except.ok i)
  let url := "patient/" ++ toString row.id ++ "/" ++ columnName ++ "/" ++ toString itemId ++ "/"
  let items1 := if s.iix < 0 then items else items.eraseIdx s.iix.toNat
  let s1 : GridState :=
    { s with
        state := .normal
        rows := updateRowFields s.rows s.rix columnName items1 }
  .ok (s1, [.del url])

/-! ### Helper lemmas -/

theorem lookup_setField (fs : List (String × List Item)) (name : String)
    (items : List Item) : (setField fs name items).lookup name = some items := by
  induction fs with
  | nil => simp [setField, List.lookup]
  | cons kv rest ih =>
    obtain ⟨k, v⟩ := kv
    by_cases h : k = name
    · subst h
      simp [setField, List.lookup]
    · have hb : (name == k) = false := beq_eq_false_iff_ne.mpr (fun hh => h hh.symm)
      simp [setField, h, List.lookup, hb, ih]

theorem lookup_setField_ne (fs : List (String × List Item)) (name other : String)
    (items : List Item) (h : other ≠ name) :
    (setField fs name items).lookup other = fs.lookup other := by
  have hb : (other == name) = false := beq_eq_false_iff_ne.mpr h
  induction fs with
  | nil => simp [setField, List.lookup, hb]
  | cons kv rest ih =>
    obtain ⟨k, v⟩ := kv
    by_cases hk : k = name
    · subst hk
      simp [setField, List.lookup, hb]
    · simp only [setField, if_neg hk]
      by_cases ho : other = k
      · simp [List.lookup, ho]
      · have hbo : (other == k) = false := beq_eq_false_iff_ne.mpr ho
        simp [List.lookup, hbo, ih]

theorem findIdx?_set_same_id (l : List Row) (n : Nat) (row row' : Row)
    (hl : l[n]? = some row) (hid : row'.id = row.id) (pid : Nat) :
    (l.set n row').findIdx? (fun r => r.id == pid) =
      l.findIdx? (fun r => r.id == pid) := by
  induction l generalizing n with
  | nil => simp at hl
  | cons x xs ih =>
    cases n with
    | zero =>
      simp at hl
      subst hl
      simp [List.findIdx?_cons, hid]
    | succ m =>
      simp at hl
      cases hx : (x.id == pid) with
      | true => simp [List.findIdx?_cons, hx]
      | false => simp [List.findIdx?_cons, hx, ih m hl]

theorem map_id_set_same (l : List Row) (n : Nat) (row row' : Row)
    (hl : l[n]? = some row) (hid : row'.id = row.id) :
    (l.set n row').map Row.id = l.map Row.id := by
  induction l generalizing n with
  | nil => simp at hl
  | cons x xs ih =>
    cases n with
    | zero =>
      simp at hl
      subst hl
      simp [hid]
    | succ m =>
      simp at hl
      simp [ih m hl]

theorem findIdx?_isSome_of_mem (l : List Row) (row : Row) (pid : Nat)
    (hmem : row ∈ l) (hp : row.id = pid) :
    ∃ k, l.findIdx? (fun r => r.id == pid) = some k := by
  cases h : l.findIdx? (fun r => r.id == pid) with
  | some k => exact ⟨k, rfl⟩
  | none =>
    rw [List.findIdx?_eq_none_iff] at h
    have := h row hmem
    simp [hp] at this

/-- Membership of the updated row in `updateRowFields`. -/
theorem mem_updateRowFields (rows : List Row) (rix : Int) (name : String)
    (items : List Item) (row : Row) (hrow : jsIndex rows rix = some row) :
    { row with fields := setField row.fields name items } ∈
      updateRowFields rows rix name items := by
  unfold updateRowFields
  rw [hrow]
  show _ ∈ jsSetElem rows rix { row with fields := setField row.fields name items }
  unfold jsSetElem
  unfold jsIndex at hrow
  split at hrow
  · simp at hrow
  · rename_i hneg
    rw [if_neg hneg]
    have hlen : rix.toNat < rows.length := by
      cases hh : rows[rix.toNat]? with
      | none => rw [hh] at hrow; simp at hrow
      | some r => exact (List.getElem?_eq_some.mp hh).1
    have := List.getElem?_set_self (l := rows)
      (a := { row with fields := setField row.fields name items }) hlen
    exact List.getElem?_mem this

theorem exceptBind_ok (a : α) (f : α → Except String β) :
    (Except.ok a >>= f : Except String β) = f a := rfl

theorem exceptBind_error (e : String) (f : α → Except String β) :
    (Except.error e >>= f : Except String β) = .error e := rfl

/-! ### Concrete fixtures for counterexamples and witnesses -/

/-- A demographics item. -/
def demoItem : Item := { data := "demo" }

/-- A location item, bed 1. -/
def locItemA : Item :=
  { category := "inpatient", hospital := "UCH", ward := "T10", bed := "1" }

/-- A location item, bed 2. -/
def locItemB : Item :=
  { category := "inpatient", hospital := "UCH", ward := "T10", bed := "2" }

/-- A location item, bed 9 (used as an edited working copy). -/
def locItemC : Item :=
  { category := "inpatient", hospital := "UCH", ward := "T10", bed := "9" }

/-- A saved diagnosis item. -/
def diagItem : Item := { id := some 5, data := "flu" }

/-- The add placeholder of patient 7. -/
def phSeven : Item := { patient := some 7 }

/-- Patient row 7 with single valued demographics and location columns. -/
def rowOne : Row :=
  { id := 7, fields := [("demographics", [demoItem]), ("location", [locItemA])] }

/-- Patient row 9. -/
def rowTwo : Row :=
  { id := 9, fields := [("demographics", [demoItem]), ("location", [locItemB])] }

/-- A second row with patient id 9 (exercises first match lookup). -/
def rowTwoDup : Row := { id := 9, fields := [] }

/-- A schema of two single valued columns, location at index 1. -/
def colsSingle : List Column := [⟨"demographics", true⟩, ⟨"location", true⟩]

/-- A schema with one multi valued column. -/
def colsMulti : List Column := [⟨"diagnosis", false⟩]

/-- Patient row 7 with a multi valued diagnosis column: one saved item and
the trailing add placeholder. -/
def diagRow : Row := { id := 7, fields := [("diagnosis", [diagItem, phSeven])] }

/-! ### C8 -/

/-- C8: for an identifier matching no row, `getRowIxFromPatientId` aborts —
but with a `ReferenceError` (the throw expression reads the undeclared
name `patient` instead of the `patientId` parameter), not with the
descriptive message naming the patient that the claim states; for a
matching identifier it returns the first matching row index. -/
theorem c8_row_lookup_bug :
    getRowIxFromPatientId [rowOne, rowTwo, rowTwoDup] 42 =
      .error "ReferenceError: patient is not defined" ∧
    getRowIxFromPatientId [rowOne, rowTwo, rowTwoDup] 9 = .ok 1 ∧
    getRowIxFromPatientId [] 7 = .error "ReferenceError: patient is not defined" :=
  ⟨rfl, rfl, rfl⟩

/-! ### C10 -/

/-- An initial state with the schema loaded, no patient rows and the
cursor at the origin. -/
def c10state : GridState :=
  { rows := [], columns := colsSingle, rix := 0, cix := 0, iix := 0,
    state := .normal, editing := {}, modal := none }

/-- C10 counterexample: with no rows loaded, pressing right does NOT leave
the cursor unchanged — it moves the column index to 1 (there is a second
column), without error and without touching the rows. -/
theorem c10_goRight_moves_cursor_cex :
    (handleKeypressNormal c10state 39).toOption.map (fun t => (t.cix, t.iix, t.rows))
      = some (1, 0, []) ∧ (1 : Int) ≠ 0 :=
  ⟨by decide, by decide⟩

/-- C10 (amended): with an empty row list and the cursor at the origin,
up (38/75) and left (37/72) leave the state unchanged without error;
down (40/74) fails, because its guard evaluates the item count of the
nonexistent row; right (39/76… key 39) succeeds without touching the rows
but moves the column index when a second column exists, and is a no-op
only when the schema has at most one column. -/
theorem c10_empty_rows_navigation (s : GridState) (hrows : s.rows = [])
    (hrix : s.rix = 0) (hcix : s.cix = 0) (hiix : s.iix = 0) :
    handleKeypressNormal s 38 = .ok s ∧ handleKeypressNormal s 75 = .ok s ∧
    handleKeypressNormal s 37 = .ok s ∧ handleKeypressNormal s 72 = .ok s ∧
    (handleKeypressNormal s 40).toOption = none ∧
    (handleKeypressNormal s 74).toOption = none ∧
    (2 ≤ s.columns.length → handleKeypressNormal s 39 = .ok { s with cix := 1, iix := 0 }) ∧
    (s.columns.length ≤ 1 → handleKeypressNormal s 39 = .ok s) := by
  have hup : goUp s = .ok s := by
    unfold goUp
    rw [hiix, hrix]
    simp
  have hdown : (goDown s).toOption = none := by
    unfold goDown getNumItems jsIndex
    rw [hcix, hrows]
    cases s.columns with
    | nil => simp [exceptBind_error, Except.toOption]
    | cons c cs => simp [exceptBind_error, Except.toOption]
  have hleft : goLeft s = s := by
    unfold goLeft
    rw [hcix]
    simp
  refine ⟨?_, ?_, ?_, ?_, ?_, ?_, ?_, ?_⟩
  · simpa [handleKeypressNormal] using hup
  · simpa [handleKeypressNormal] using hup
  · simp [handleKeypressNormal, hleft]
  · simp [handleKeypressNormal, hleft]
  · simpa [handleKeypressNormal] using hdown
  · simpa [handleKeypressNormal] using hdown
  · intro hlen
    have hcond : s.cix < (s.columns.length : Int) - 1 := by
      rw [hcix]
      omega
    have hone : s.cix + 1 = 1 := by omega
    simp [handleKeypressNormal, goRight, if_pos hcond, hone]
  · intro hlen
    have hcond : ¬ s.cix < (s.columns.length : Int) - 1 := by
      rw [hcix]
      omega
    simp [handleKeypressNormal, goRight, if_neg hcond]

/-- C10 witness: the amended navigation facts at the concrete empty grid
with two schema columns. -/
theorem c10_empty_rows_navigation_witness :
    handleKeypressNormal c10state 38 = .ok c10state ∧
    (handleKeypressNormal c10state 40).toOption = none ∧
    handleKeypressNormal c10state 39 = .ok { c10state with cix := 1, iix := 0 } :=
  ⟨(c10_empty_rows_navigation c10state rfl rfl rfl rfl).1,
   (c10_empty_rows_navigation c10state rfl rfl rfl rfl).2.2.2.2.1,
   (c10_empty_rows_navigation c10state rfl rfl rfl rfl).2.2.2.2.2.2.1 (by decide)⟩

theorem map_id_updateRowFields (rows : List Row) (rix : Int) (name : String)
    (items : List Item) :
    (updateRowFields rows rix name items).map Row.id = rows.map Row.id := by
  unfold updateRowFields
  cases hrow : jsIndex rows rix with
  | none => rfl
  | some row =>
    have hred : (match some row with
        | none => rows
        | some r => jsSetElem rows rix { r with fields := setField r.fields name items })
        = jsSetElem rows rix { row with fields := setField row.fields name items } := rfl
    rw [hred]
    unfold jsSetElem
    unfold jsIndex at hrow
    split at hrow
    · simp at hrow
    · rename_i h
      rw [if_neg h]
      exact map_id_set_same rows rix.toNat row _ hrow rfl

/-! ### C5 -/

/-- The location column of `colsSingle`, at column index 1. -/
def locCol : Column := ⟨"location", true⟩

/-- A state editing the location column (column index 1) of patient 7. -/
def c5state : GridState :=
  { rows := [rowOne, rowTwo], columns := colsSingle, rix := 0, cix := 1, iix := 0,
    state := .editing, editing := locItemC, modal := some "location-modal" }

/-- C5 counterexample: committing a location edit made at column index 1
repositions the cursor to `(getRowIxFromPatientId .., $scope.cix, 0)` — the
column index stays 1, not the column index 0 of the patient first cell
that the claim states.  (The edited location moves patient 7 behind
patient 9, so the row index becomes 1.) -/
theorem c5_location_edit_column_index_cex :
    (saveEdit c5state).toOption.map (fun o => (o.state.cix, o.state.rix, o.state.iix))
      = some (1, 1, 0) ∧ (1 : Int) ≠ 0 :=
  ⟨by decide, by decide⟩

/-- C5 (amended): committing a single column edit replaces the local item
in place and puts to the column sub resource url; exactly when the edited
column is `location` the rows are re-sorted (same rows, now ordered) and
the cursor is repositioned to the row found for the edited patient id,
with the item index reset to 0 and the column index left at the current
column (not column 0); editing any other single column leaves the row
order and the cursor unchanged. -/
theorem c5_saveEdit_single_column (s : GridState) (c : Column) (row : Row)
    (items : List Item)
    (hc : jsIndex s.columns s.cix = some c) (hsingle : c.single = true)
    (hrow : jsIndex s.rows s.rix = some row)
    (hitems : row.fields.lookup c.name = some items) :
    ∃ out, saveEdit s = .ok out ∧
      out.reqs = [.put ("patient/" ++ toString row.id ++ "/" ++ c.name ++ "/")] ∧
      out.pendingCreate = none ∧
      out.state.state = .normal ∧
      (c.name ≠ "location" →
        out.state.rows = updateRowFields s.rows s.rix c.name (jsSetElem items s.iix s.editing) ∧
        out.state.rows.map Row.id = s.rows.map Row.id ∧
        out.state.rix = s.rix ∧ out.state.cix = s.cix ∧ out.state.iix = s.iix) ∧
      (c.name = "location" →
        List.Sorted rowLE out.state.rows ∧
        out.state.rows.Perm
          (updateRowFields s.rows s.rix c.name (jsSetElem items s.iix s.editing)) ∧
        out.state.cix = s.cix ∧ out.state.iix = 0 ∧
        ∃ k, getRowIxFromPatientId out.state.rows row.id = .ok k ∧
          out.state.rix = (k : Int)) := by
  have hname : getCurrentColumnName s = .ok c.name := by
    simp [getCurrentColumnName, getColumnName, hc]
  have hsing1 : ∀ rows2 rix2 iix2 st2 ed2 md2,
      isSingleColumn ⟨rows2, s.columns, rix2, s.cix, iix2, st2, ed2, md2⟩ s.cix = .ok true := by
    intro rows2 rix2 iix2 st2 ed2 md2
    simp [isSingleColumn, hc, hsingle]
  by_cases hloc : c.name = "location"
  · have hmem : { row with fields := setField row.fields c.name (jsSetElem items s.iix s.editing) } ∈
        updateRowFields s.rows s.rix c.name (jsSetElem items s.iix s.editing) :=
      mem_updateRowFields s.rows s.rix c.name (jsSetElem items s.iix s.editing) row hrow
    have hmem2 : { row with fields := setField row.fields c.name (jsSetElem items s.iix s.editing) } ∈
        orderByOrdering (updateRowFields s.rows s.rix c.name (jsSetElem items s.iix s.editing)) :=
      ((orderByOrdering_perm _).mem_iff).mpr hmem
    obtain ⟨k, hk⟩ := findIdx?_isSome_of_mem _ _ row.id hmem2 rfl
    have hfind : getRowIxFromPatientId
        (orderByOrdering (updateRowFields s.rows s.rix c.name (jsSetElem items s.iix s.editing)))
        row.id = .ok k := by
      unfold getRowIxFromPatientId
      rw [hk]
    have heq : saveEdit s = .ok
        { state :=
            { s with
                state := .normal
                modal := none
                rows := orderByOrdering
                  (updateRowFields s.rows s.rix c.name (jsSetElem items s.iix s.editing))
                rix := (k : Int)
                cix := s.cix
                iix := 0 }
          reqs := [.put ("patient/" ++ toString row.id ++ "/" ++ c.name ++ "/")]
          pendingCreate := none } := by
      have hitems2 : List.lookup "location" row.fields = some items := by
        rw [← hloc]; exact hitems
      have hfind2 : getRowIxFromPatientId
          (orderByOrdering (updateRowFields s.rows s.rix "location" (jsSetElem items s.iix s.editing)))
          row.id = .ok k := by
        rw [← hloc]; exact hfind
      simp only [saveEdit, hname, exceptBind_ok, hrow, clone, hloc]
      simp [hsing1, exceptBind_ok, hitems2, hfind2, selectItem]
    refine ⟨_, heq, rfl, rfl, rfl, fun hne => absurd hloc hne, fun _ => ?_⟩
    exact ⟨orderByOrdering_sorted _, orderByOrdering_perm _, rfl, rfl, k, hfind, rfl⟩
  · have heq : saveEdit s = .ok
        { state :=
            { s with
                state := .normal
                modal := none
                rows := updateRowFields s.rows s.rix c.name (jsSetElem items s.iix s.editing) }
          reqs := [.put ("patient/" ++ toString row.id ++ "/" ++ c.name ++ "/")]
          pendingCreate := none } := by
      simp only [saveEdit, hname, exceptBind_ok, hrow, hitems, clone]
      simp [hsing1, exceptBind_ok, hloc]
    refine ⟨_, heq, rfl, rfl, rfl, fun _ => ?_, fun hl => absurd hl hloc⟩
    exact ⟨rfl, map_id_updateRowFields s.rows s.rix c.name _, rfl, rfl, rfl⟩

/-- C5 witness: the amended statement instantiated at the concrete
location edit of patient 7. -/
theorem c5_saveEdit_single_column_witness :
    ∃ out, saveEdit c5state = .ok out ∧
      out.reqs = [.put ("patient/" ++ toString rowOne.id ++ "/" ++ locCol.name ++ "/")] ∧
      out.pendingCreate = none ∧
      out.state.state = .normal ∧
      (locCol.name ≠ "location" →
        out.state.rows = updateRowFields c5state.rows c5state.rix locCol.name
          (jsSetElem [locItemA] c5state.iix c5state.editing) ∧
        out.state.rows.map Row.id = c5state.rows.map Row.id ∧
        out.state.rix = c5state.rix ∧ out.state.cix = c5state.cix ∧
        out.state.iix = c5state.iix) ∧
      (locCol.name = "location" →
        List.Sorted rowLE out.state.rows ∧
        out.state.rows.Perm (updateRowFields c5state.rows c5state.rix locCol.name
          (jsSetElem [locItemA] c5state.iix c5state.editing)) ∧
        out.state.cix = c5state.cix ∧ out.state.iix = 0 ∧
        ∃ k, getRowIxFromPatientId out.state.rows rowOne.id = .ok k ∧
          out.state.rix = (k : Int)) :=
  c5_saveEdit_single_column c5state locCol rowOne [locItemA]
    (by decide) rfl (by decide) (by decide)

/-! ### C9 -/

/-- A state editing the trailing add placeholder of the diagnosis column
(a new item: the working copy has no id). -/
def c9state : GridState :=
  { rows := [diagRow], columns := colsMulti, rix := 0, cix := 0, iix := 1,
    state := .editing, editing := { data := "cold" }, modal := some "diagnosis-modal" }

/-- C9 counterexample: chaining from a NEW item (no id), `saveEditAndAdd`
sets the item index while the create callback is still pending, so it
lands on the just committed item — the working copy it re-opens is that
item (data `cold`, not an add placeholder) — and once the create success
callback appends the fresh placeholder (item count 3) the cursor index 1
is no longer the trailing index 2. -/
theorem c9_saveEditAndAdd_new_item_cex :
    (saveEditAndAdd c9state).toOption.map
        (fun o => (o.state.iix, o.state.editing.data, o.state.editing.patient,
          o.pendingCreate))
      = some (1, "cold", none, some (7, "diagnosis")) ∧
    ((saveEditAndAdd c9state).toOption.bind
        (fun o => (createSuccess o.state 7 "diagnosis" 9).toOption)).map
        (fun t => ((getNumItems t t.rix t.cix).toOption, t.iix))
      = some (some 3, 1) ∧
    (1 : Int) ≠ (3 : Int) - 1 :=
  ⟨by decide, by decide, by decide⟩

/-- C9 (amended): `saveEditAndAdd` commits the current edit and then moves
the item index to `itemCount - 1` counted on the synchronous state (before
any pending create callback has appended a placeholder) and re-enters
editing with a working copy of the item at that index.  For a chained edit
of an existing item this index is the trailing add placeholder; for a new
item it is the just committed item, and after the create callback runs the
cursor no longer sits on the trailing item (see the counterexample). -/
theorem c9_saveEditAndAdd_trailing_sync (s : GridState) (out0 : SaveEditOut)
    (n : Nat) (it : Item) (name : String)
    (hse : saveEdit s = .ok out0)
    (hn : getNumItems out0.state out0.state.rix out0.state.cix = .ok n)
    (hit : getCurrentItem { out0.state with iix := (n : Int) - 1 } = .ok it)
    (hname : getCurrentColumnName { out0.state with iix := (n : Int) - 1 } = .ok name) :
    ∃ out, saveEditAndAdd s = .ok out ∧
      out.reqs = out0.reqs ∧
      out.pendingCreate = out0.pendingCreate ∧
      out.state.rows = out0.state.rows ∧
      out.state.rix = out0.state.rix ∧
      out.state.cix = out0.state.cix ∧
      out.state.iix = (n : Int) - 1 ∧
      out.state.state = .editing ∧
      out.state.editing = it ∧
      out.state.modal = some (name ++ "-modal") := by
  have hstart : startEdit { out0.state with iix := (n : Int) - 1 } = .ok
      { out0.state with
          iix := (n : Int) - 1
          state := .editing
          editing := it
          modal := some (name ++ "-modal") } := by
    simp only [startEdit, hit, hname, exceptBind_ok, clone]
  have heq : saveEditAndAdd s = .ok { out0 with state := { out0.state with iix := (n : Int) - 1, state := .editing, editing := it, modal := some (name ++ "-modal") } } := by
    simp only [saveEditAndAdd, hse, exceptBind_ok, hn, hstart]
  exact ⟨_, heq, rfl, rfl, rfl, rfl, rfl, rfl, rfl, rfl, rfl⟩

/-- The working copy of an edit of the existing diagnosis item. -/
def flu2Item : Item := { id := some 5, data := "flu2" }

/-- A state editing the existing diagnosis item (id 5) of patient 7. -/
def c9bstate : GridState :=
  { rows := [diagRow], columns := colsMulti, rix := 0, cix := 0, iix := 0,
    state := .editing, editing := flu2Item, modal := some "diagnosis-modal" }

/-- The synchronous result of committing that edit. -/
def c9bOut0 : SaveEditOut :=
  { state :=
      { rows := [{ id := 7, fields := [("diagnosis", [flu2Item, phSeven])] }],
        columns := colsMulti, rix := 0, cix := 0, iix := 0,
        state := .normal, editing := flu2Item, modal := none }
    reqs := [.put "patient/7/diagnosis/5/"]
    pendingCreate := none }

/-- C9 witness: chaining from the existing item lands the cursor on the
trailing placeholder and re-opens it as the working copy. -/
theorem c9_saveEditAndAdd_trailing_sync_witness :
    ∃ out, saveEditAndAdd c9bstate = .ok out ∧
      out.reqs = c9bOut0.reqs ∧
      out.pendingCreate = c9bOut0.pendingCreate ∧
      out.state.rows = c9bOut0.state.rows ∧
      out.state.rix = c9bOut0.state.rix ∧
      out.state.cix = c9bOut0.state.cix ∧
      out.state.iix = (2 : Int) - 1 ∧
      out.state.state = .editing ∧
      out.state.editing = phSeven ∧
      out.state.modal = some ("diagnosis" ++ "-modal") :=
  c9_saveEditAndAdd_trailing_sync c9bstate c9bOut0 2 phSeven "diagnosis" rfl rfl rfl rfl

/-! ### C6 -/

/-- C6: pressing delete (46) or backspace (8) in the normal state enters
`deleting` (opening the confirmation modal) iff the selected column is
multi valued and the selected item is not the trailing add placeholder
(item index `itemCount - 1`); otherwise the keypress returns the state
completely unchanged — mode still `normal`, no modal opened, cursor and
rows untouched. -/
theorem c6_delete_guard (s : GridState) (c : Column) (k : Nat)
    (hk : k = 8 ∨ k = 46) (hnorm : s.state = .normal)
    (hc : jsIndex s.columns s.cix = some c) :
    (c.single = true → keypress s k = .ok s) ∧
    (∀ row items, c.single = false → jsIndex s.rows s.rix = some row →
      row.fields.lookup c.name = some items →
      ((s.iix = (items.length : Int) - 1 → keypress s k = .ok s) ∧
       (s.iix ≠ (items.length : Int) - 1 →
         keypress s k = .ok { s with state := .deleting, modal := some "delete-confirmation" }))) := by
  have hdisp : keypress s k = startDelete s := by
    rcases hk with hk | hk <;> subst hk <;> simp [keypress, hnorm, handleKeypressNormal]
  rw [hdisp]
  constructor
  · intro hsingle
    simp [startDelete, isSingleColumn, hc, hsingle, exceptBind_ok]
  · intro row items hsingle hrow hitems
    have hred : startDelete s =
        (if (items.length : Int) = s.iix + 1 then Except.ok s
         else .ok { s with state := .deleting, modal := some "delete-confirmation" }) := by
      simp [startDelete, isSingleColumn, hc, hsingle, getNumItems, hrow, hitems, exceptBind_ok]
    constructor
    · intro hlast
      rw [hred, if_pos (by omega)]
    · intro hnot
      rw [hred, if_neg (by omega)]

/-- A normal mode state with the cursor on the saved diagnosis item
(multi valued column, not the trailing placeholder). -/
def normalDiagState : GridState :=
  { rows := [diagRow], columns := colsMulti, rix := 0, cix := 0, iix := 0,
    state := .normal, editing := {}, modal := none }

/-- The same grid with the cursor on the trailing add placeholder. -/
def normalDiagLastState : GridState :=
  { normalDiagState with iix := 1 }

/-- A normal mode state with the cursor on a single valued column. -/
def normalSingleState : GridState :=
  { rows := [rowOne, rowTwo], columns := colsSingle, rix := 0, cix := 0, iix := 0,
    state := .normal, editing := {}, modal := none }

/-- C6 witness: the three guard cases at concrete states — single valued
column (no-op), multi valued non trailing item (enters deleting), multi
valued trailing placeholder (no-op). -/
theorem c6_delete_guard_witness :
    keypress normalSingleState 8 = .ok normalSingleState ∧
    keypress normalDiagState 8 =
      .ok { normalDiagState with state := .deleting, modal := some "delete-confirmation" } ∧
    keypress normalDiagLastState 46 = .ok normalDiagLastState :=
  ⟨(c6_delete_guard normalSingleState ⟨"demographics", true⟩ 8 (Or.inl rfl) rfl
      (by decide)).1 rfl,
   ((c6_delete_guard normalDiagState ⟨"diagnosis", false⟩ 8 (Or.inl rfl) rfl
      (by decide)).2 diagRow [diagItem, phSeven] rfl (by decide) (by decide)).2 (by decide),
   ((c6_delete_guard normalDiagLastState ⟨"diagnosis", false⟩ 46 (Or.inr rfl) rfl
      (by decide)).2 diagRow [diagItem, phSeven] rfl (by decide) (by decide)).1 (by decide)⟩

/-! ### C7 -/

theorem startEdit_ok_shape (s t : GridState) (h : startEdit s = .ok t) :
    ∃ item col, getCurrentItem s = .ok item ∧ jsIndex s.columns s.cix = some col ∧
      t = { s with state := .editing, editing := item, modal := some (col.name ++ "-modal") } := by
  unfold startEdit at h
  cases hgi : getCurrentItem s with
  | error e =>
    rw [hgi, exceptBind_error] at h
    simp at h
  | ok item =>
    rw [hgi, exceptBind_ok] at h
    cases hcol : jsIndex s.columns s.cix with
    | none =>
      unfold getCurrentColumnName getColumnName at h
      rw [hcol, exceptBind_error] at h
      simp at h
    | some col =>
      unfold getCurrentColumnName getColumnName at h
      rw [hcol, exceptBind_ok] at h
      simp only [Except.ok.injEq] at h
      exact ⟨item, col, rfl, rfl, h.symm⟩

theorem startDelete_ok_shape (s t : GridState) (h : startDelete s = .ok t) :
    t = s ∨ t = { s with state := .deleting, modal := some "delete-confirmation" } := by
  unfold startDelete at h
  cases hcol : jsIndex s.columns s.cix with
  | none =>
    unfold isSingleColumn at h
    rw [hcol, exceptBind_error] at h
    simp at h
  | some col =>
    unfold isSingleColumn at h
    rw [hcol, exceptBind_ok] at h
    by_cases hs : col.single
    · rw [if_pos hs] at h
      simp at h
      exact Or.inl h.symm
    · rw [if_neg hs]  at h
      cases hn : getNumItems s s.rix s.cix with
      | error e =>
        rw [hn, exceptBind_error] at h
        simp at h
      | ok n =>
        rw [hn, exceptBind_ok] at h
        by_cases hlast : (n : Int) = s.iix + 1
        · rw [if_pos hlast] at h
          simp at h
          exact Or.inl h.symm
        · rw [if_neg hlast] at h
          simp at h
          exact Or.inr h.symm

/-- C7: from each of the three modal interactions started out of a normal
state — add (button), edit (enter) and delete (delete key, when it did
enter `deleting`) — pressing escape (key 27) succeeds, returns the mode to
`normal`, and leaves the rows (hence every column item sequence) and the
cursor exactly as they were before the interaction began: the uncommitted
working copy never reaches the grid. -/
theorem c7_escape_cancels (s s1e s1d : GridState)
    (hnorm : s.state = .normal)
    (hedit : keypress s 13 = .ok s1e)
    (hdel : keypress s 46 = .ok s1d)
    (hdelMode : s1d.state = .deleting) :
    (keypress (startAdd s) 27).toOption.map
        (fun t => (t.state, t.rows, t.rix, t.cix, t.iix))
      = some (.normal, s.rows, s.rix, s.cix, s.iix) ∧
    (keypress s1e 27).toOption.map (fun t => (t.state, t.rows, t.rix, t.cix, t.iix))
      = some (.normal, s.rows, s.rix, s.cix, s.iix) ∧
    (keypress s1d 27).toOption.map (fun t => (t.state, t.rows, t.rix, t.cix, t.iix))
      = some (.normal, s.rows, s.rix, s.cix, s.iix) := by
  have hd13 : keypress s 13 = startEdit s := by
    simp [keypress, hnorm, handleKeypressNormal]
  have hd46 : keypress s 46 = startDelete s := by
    simp [keypress, hnorm, handleKeypressNormal]
  refine ⟨?_, ?_, ?_⟩
  · simp [keypress, startAdd, handleKeypressAdd, cancelAdd, Except.toOption]
  · rw [hd13] at hedit
    obtain ⟨item, col, hgi, hcol, ht⟩ := startEdit_ok_shape s s1e hedit
    subst ht
    simp [keypress, handleKeypressEdit, cancelEdit, getCurrentColumnName, getColumnName,
      hcol, exceptBind_ok, Except.toOption]
  · rw [hd46] at hdel
    rcases startDelete_ok_shape s s1d hdel with ht | ht
    · rw [ht] at hdelMode
      rw [hnorm] at hdelMode
      simp at hdelMode
    · subst ht
      simp [keypress, handleKeypressDelete, cancelDelete, Except.toOption]

/-- The state after pressing enter on the saved diagnosis item. -/
def editDiagState : GridState :=
  { normalDiagState with
      state := .editing
      editing := diagItem
      modal := some "diagnosis-modal" }

/-- The state after pressing delete on the saved diagnosis item. -/
def deleteDiagState : GridState :=
  { normalDiagState with state := .deleting, modal := some "delete-confirmation" }

/-- C7 witness: escape out of adding, editing and deleting at the concrete
diagnosis grid restores the original rows, cursor and normal mode. -/
theorem c7_escape_cancels_witness :
    (keypress (startAdd normalDiagState) 27).toOption.map
        (fun t => (t.state, t.rows, t.rix, t.cix, t.iix))
      = some (.normal, normalDiagState.rows, normalDiagState.rix,
          normalDiagState.cix, normalDiagState.iix) ∧
    (keypress editDiagState 27).toOption.map
        (fun t => (t.state, t.rows, t.rix, t.cix, t.iix))
      = some (.normal, normalDiagState.rows, normalDiagState.rix,
          normalDiagState.cix, normalDiagState.iix) ∧
    (keypress deleteDiagState 27).toOption.map
        (fun t => (t.state, t.rows, t.rix, t.cix, t.iix))
      = some (.normal, normalDiagState.rows, normalDiagState.rix,
          normalDiagState.cix, normalDiagState.iix) :=
  c7_escape_cancels normalDiagState editDiagState deleteDiagState rfl rfl rfl rfl


theorem jsIndex_eq_some {l : List α} {i : Int} {a : α} (h : jsIndex l i = some a) :
    0 ≤ i ∧ l[i.toNat]? = some a := by
  unfold jsIndex at h
  split at h
  · simp at h
  · rename_i hneg
    exact ⟨by omega, h⟩

theorem jsIndex_of_nonneg {l : List α} {i : Int} (h0 : 0 ≤ i) :
    jsIndex l i = l[i.toNat]? := by
  unfold jsIndex
  rw [if_neg (by omega)]

theorem updateRowFields_eq_set (rows : List Row) (rix : Int) (name : String)
    (items : List Item) (row : Row) (hrow : jsIndex rows rix = some row) :
    updateRowFields rows rix name items =
      rows.set rix.toNat { row with fields := setField row.fields name items } := by
  unfold updateRowFields
  rw [hrow]
  have hred : (match some row with
      | none => rows
      | some r => jsSetElem rows rix { r with fields := setField r.fields name items })
      = jsSetElem rows rix { row with fields := setField row.fields name items } := rfl
  rw [hred]
  unfold jsSetElem
  unfold jsIndex at hrow
  split at hrow
  · simp at hrow
  · rename_i h
    rw [if_neg h]

/-! ### C4 -/

/-- C4: committing an edit of a multi valued column whose working copy has
no id issues a create call (post to the column url) with a pending success
callback; when the callback runs with the server assigned id, that id is
written into the committed local item and a fresh add placeholder
`(patient: <patient id>)` is appended after it, so the item list grows
from `N + 1` rendered items (N real plus placeholder, when the edit
targeted the placeholder) to `N + 2` — always one more than the real item
count. -/
theorem c4_saveEdit_new_multi_item (s : GridState) (c : Column) (row : Row)
    (items : List Item) (serverId : Nat)
    (hc : jsIndex s.columns s.cix = some c) (hsingle : c.single = false)
    (hid : s.editing.id = none)
    (hrow : jsIndex s.rows s.rix = some row)
    (hitems : row.fields.lookup c.name = some items)
    (hiix0 : 0 ≤ s.iix) (hiix : s.iix < (items.length : Int))
    (hfirst : s.rows.findIdx? (fun r => r.id == row.id) = some s.rix.toNat) :
    ∃ out, saveEdit s = .ok out ∧
      out.reqs = [.post ("patient/" ++ toString row.id ++ "/" ++ c.name ++ "/")] ∧
      out.pendingCreate = some (row.id, c.name) ∧
      out.state.state = .normal ∧
      out.state.rix = s.rix ∧ out.state.cix = s.cix ∧ out.state.iix = s.iix ∧
      ∃ t, createSuccess out.state row.id c.name serverId = .ok t ∧
        ∃ row2, jsIndex t.rows s.rix = some row2 ∧
          row2.fields.lookup c.name =
            some ((items.set s.iix.toNat { s.editing with id := some serverId })
              ++ [addItem row.id]) ∧
          ((items.set s.iix.toNat { s.editing with id := some serverId })
              ++ [addItem row.id]).length = items.length + 1 := by
  obtain ⟨hrix0, hrowN⟩ := jsIndex_eq_some hrow
  obtain ⟨_, _⟩ := jsIndex_eq_some hc
  have hname : getCurrentColumnName s = .ok c.name := by
    simp [getCurrentColumnName, getColumnName, hc]
  have hsing0 : ∀ rows2 rix2 iix2 st2 ed2 md2,
      isSingleColumn ⟨rows2, s.columns, rix2, s.cix, iix2, st2, ed2, md2⟩ s.cix = .ok false := by
    intro rows2 rix2 iix2 st2 ed2 md2
    simp [isSingleColumn, hc, hsingle]
  have hiixN : s.iix.toNat < items.length := by omega
  -- the synchronous commit
  have hitems1 : jsSetElem items s.iix (clone s.editing) = items.set s.iix.toNat s.editing := by
    unfold jsSetElem clone
    rw [if_neg (by omega)]
  have heq : saveEdit s = .ok
      { state :=
          { s with
              state := .normal
              modal := none
              rows := updateRowFields s.rows s.rix c.name (items.set s.iix.toNat s.editing) }
        reqs := [.post ("patient/" ++ toString row.id ++ "/" ++ c.name ++ "/")]
        pendingCreate := some (row.id, c.name) } := by
    simp only [saveEdit, hname, exceptBind_ok, hrow, hitems, hitems1]
    simp [hsing0, exceptBind_ok, hid]
  -- name the committed row and list
  set row1 : Row :=
    { row with fields := setField row.fields c.name (items.set s.iix.toNat s.editing) } with hrow1def
  have hupd : updateRowFields s.rows s.rix c.name (items.set s.iix.toNat s.editing) =
      s.rows.set s.rix.toNat row1 :=
    updateRowFields_eq_set s.rows s.rix c.name _ row hrow
  -- the create callback
  have hfind1 : (s.rows.set s.rix.toNat row1).findIdx? (fun r => r.id == row.id)
      = some s.rix.toNat := by
    rw [findIdx?_set_same_id s.rows s.rix.toNat row row1 hrowN rfl row.id]
    exact hfirst
  have hrixlen : s.rix.toNat < s.rows.length := (List.getElem?_eq_some.mp hrowN).1
  have hget1 : (s.rows.set s.rix.toNat row1)[s.rix.toNat]? = some row1 :=
    List.getElem?_set_self hrixlen
  have hlook1 : row1.fields.lookup c.name = some (items.set s.iix.toNat s.editing) :=
    lookup_setField row.fields c.name _
  have hitem1 : jsIndex (items.set s.iix.toNat s.editing) s.iix = some s.editing := by
    rw [jsIndex_of_nonneg hiix0]
    exact List.getElem?_set_self (by omega)
  have hsetset : jsSetElem (items.set s.iix.toNat s.editing) s.iix
      { s.editing with id := some serverId }
      = items.set s.iix.toNat { s.editing with id := some serverId } := by
    unfold jsSetElem
    rw [if_neg (by omega), List.set_set]
  refine ⟨_, heq, rfl, rfl, rfl, rfl, rfl, rfl, ?_⟩
  have hcast : ((s.rix.toNat : Int)).toNat = s.rix.toNat := by omega
  set ed2 : Item := { s.editing with id := some serverId } with hed2
  set items2 : List Item := items.set s.iix.toNat ed2 ++ [addItem row.id] with hitems2
  set row2 : Row := { row1 with fields := setField row1.fields c.name items2 } with hrow2
  have hcs : createSuccess
      { s with
          state := .normal
          modal := none
          rows := updateRowFields s.rows s.rix c.name (items.set s.iix.toNat s.editing) }
      row.id c.name serverId = .ok
      { s with
          state := .normal
          modal := none
          rows := updateRowFields (s.rows.set s.rix.toNat row1) (s.rix.toNat : Int) c.name items2 } := by
    simp only [createSuccess, hupd, hfind1, hget1, hlook1, hitem1, hsetset]
  refine ⟨_, hcs, ?_⟩
  have hjs : jsIndex (s.rows.set s.rix.toNat row1) (s.rix.toNat : Int) = some row1 := by
    rw [jsIndex_of_nonneg (by omega), hcast]
    exact hget1
  have hupd2 : updateRowFields (s.rows.set s.rix.toNat row1) (s.rix.toNat : Int) c.name items2
      = s.rows.set s.rix.toNat row2 := by
    rw [updateRowFields_eq_set (s.rows.set s.rix.toNat row1) (s.rix.toNat : Int) c.name items2 row1 hjs]
    rw [hcast, List.set_set]
  refine ⟨row2, ?_, ?_, ?_⟩
  · show jsIndex _ s.rix = some _
    rw [hupd2, jsIndex_of_nonneg hrix0]
    exact List.getElem?_set_self (by simpa using hrixlen)
  · exact lookup_setField row1.fields c.name _
  · simp [hitems2, List.length_set]

/-- The diagnosis column of `colsMulti`. -/
def diagCol : Column := ⟨"diagnosis", false⟩

/-- C4 witness: the new item commit and its create callback at the
concrete diagnosis grid (editing the trailing placeholder, server id 9). -/
theorem c4_saveEdit_new_multi_item_witness :
    ∃ out, saveEdit c9state = .ok out ∧
      out.reqs = [.post ("patient/" ++ toString diagRow.id ++ "/" ++ diagCol.name ++ "/")] ∧
      out.pendingCreate = some (diagRow.id, diagCol.name) ∧
      out.state.state = .normal ∧
      out.state.rix = c9state.rix ∧ out.state.cix = c9state.cix ∧
      out.state.iix = c9state.iix ∧
      ∃ t, createSuccess out.state diagRow.id diagCol.name 9 = .ok t ∧
        ∃ row2, jsIndex t.rows c9state.rix = some row2 ∧
          row2.fields.lookup diagCol.name =
            some (([diagItem, phSeven].set c9state.iix.toNat
                { c9state.editing with id := some 9 })
              ++ [addItem diagRow.id]) ∧
          (([diagItem, phSeven].set c9state.iix.toNat
              { c9state.editing with id := some 9 })
              ++ [addItem diagRow.id]).length = [diagItem, phSeven].length + 1 :=
  c4_saveEdit_new_multi_item c9state diagCol diagRow [diagItem, phSeven] 9
    (by decide) rfl rfl (by decide) (by decide) (by decide) (by decide) (by decide)


theorem normalizeFields_lookup (columns : List Column) (r : RawRow)
    (fs : List (String × List Item))
    (hnd : (columns.map Column.name).Nodup)
    (h : normalizeFields columns r = .ok fs) :
    ∀ c ∈ columns, ∃ v items, r.fields.lookup c.name = some v ∧
      normalizeField c.single r.id v = .ok items ∧ fs.lookup c.name = some items := by
  induction columns generalizing fs with
  | nil =>
    intro c hc
    simp at hc
  | cons c0 rest ih =>
    cases hv : r.fields.lookup c0.name with
    | none =>
      unfold normalizeFields at h
      rw [hv, exceptBind_error] at h
      simp at h
    | some v =>
      unfold normalizeFields at h
      rw [hv, exceptBind_ok] at h
      cases hnf : normalizeField c0.single r.id v with
      | error e =>
        rw [hnf, exceptBind_error] at h
        simp at h
      | ok items0 =>
        rw [hnf, exceptBind_ok] at h
        cases htail : normalizeFields rest r with
        | error e =>
          rw [htail, exceptBind_error] at h
          simp at h
        | ok tail =>
          rw [htail, exceptBind_ok] at h
          simp only [Except.ok.injEq] at h
          subst h
          have hnd0 : ∀ x ∈ rest, ¬x.name = c0.name := by
            simp [List.nodup_cons] at hnd
            exact hnd.1
          have hndr : (rest.map Column.name).Nodup := by
            simp [List.nodup_cons] at hnd
            exact hnd.2
          intro c hc
          rcases List.mem_cons.mp hc with rfl | hcr
          · exact ⟨v, items0, hv, hnf, by simp [List.lookup]⟩
          · obtain ⟨v', items', hv', hnf', hl'⟩ := ih tail hndr htail c hcr
            refine ⟨v', items', hv', hnf', ?_⟩
            have hne : (c.name == c0.name) = false :=
              beq_eq_false_iff_ne.mpr (hnd0 c hcr)
            simp [List.lookup, hne, hl']

theorem normalizeRows_mem (columns : List Column) (raws : List RawRow) (l : List Row)
    (h : normalizeRows columns raws = .ok l) :
    ∀ row ∈ l, ∃ raw ∈ raws, normalizeRow columns raw = .ok row := by
  induction raws generalizing l with
  | nil =>
    unfold normalizeRows at h
    simp only [Except.ok.injEq] at h
    subst h
    intro row hr
    simp at hr
  | cons r rest ih =>
    unfold normalizeRows at h
    cases hr0 : normalizeRow columns r with
    | error e =>
      rw [hr0, exceptBind_error] at h
      simp at h
    | ok row0 =>
      rw [hr0, exceptBind_ok] at h
      cases htail : normalizeRows columns rest with
      | error e =>
        rw [htail, exceptBind_error] at h
        simp at h
      | ok tail =>
        rw [htail, exceptBind_ok] at h
        simp only [Except.ok.injEq] at h
        subst h
        intro row hr
        rcases List.mem_cons.mp hr with rfl | hrr
        · exact ⟨r, List.mem_cons_self r rest, hr0⟩
        · obtain ⟨raw, hraw, hnr⟩ := ih tail htail row hrr
          exact ⟨raw, List.mem_cons_of_mem r hraw, hnr⟩

/-! ### C3 -/

/-- C3: every row stored by the initial load comes from a fetched row with
the same id whose column properties were normalized exactly as the claim
states — a single valued column wraps its scalar into a one element array,
a multi valued column gets the add placeholder `(patient: <row id>)`
appended at the end of its array.  (Distinct column names are assumed; a
duplicated schema name would make the two passes interfere.) -/
theorem c3_load_normalizes (columns : List Column) (raws : List RawRow) (l : List Row)
    (hnd : (columns.map Column.name).Nodup)
    (h : loadPatients columns raws = .ok l) :
    ∀ row ∈ l, ∃ raw, raw ∈ raws ∧ row.id = raw.id ∧
      ∀ c ∈ columns,
        (c.single = true → ∀ i, raw.fields.lookup c.name = some (.scalar i) →
          row.fields.lookup c.name = some [i]) ∧
        (c.single = false → ∀ xs, raw.fields.lookup c.name = some (.array xs) →
          row.fields.lookup c.name = some (xs ++ [addItem raw.id])) := by
  unfold loadPatients at h
  cases hn : normalizeRows columns raws with
  | error e =>
    rw [hn, exceptBind_error] at h
    simp at h
  | ok rows0 =>
    rw [hn, exceptBind_ok] at h
    simp only [Except.ok.injEq] at h
    subst h
    intro row hrow
    have hrow0 : row ∈ rows0 := ((orderByOrdering_perm rows0).mem_iff).mp hrow
    obtain ⟨raw, hraw, hnr⟩ := normalizeRows_mem columns raws rows0 hn row hrow0
    unfold normalizeRow at hnr
    cases hnf : normalizeFields columns raw with
    | error e =>
      rw [hnf, exceptBind_error] at hnr
      simp at hnr
    | ok fs =>
      rw [hnf, exceptBind_ok] at hnr
      simp only [Except.ok.injEq] at hnr
      subst hnr
      refine ⟨raw, hraw, rfl, ?_⟩
      intro c hc
      obtain ⟨v, items, hv, hnfield, hl⟩ := normalizeFields_lookup columns raw fs hnd hnf c hc
      constructor
      · intro hsingle i hvi
        rw [hv] at hvi
        simp only [Option.some.injEq] at hvi
        subst hvi
        unfold normalizeField at hnfield
        rw [if_pos hsingle] at hnfield
        simp only [Except.ok.injEq] at hnfield
        subst hnfield
        exact hl
      · intro hsingle xs hvx
        rw [hv] at hvx
        simp only [Option.some.injEq] at hvx
        subst hvx
        unfold normalizeField at hnfield
        rw [if_neg (by simp [hsingle])] at hnfield
        simp only [Except.ok.injEq] at hnfield
        subst hnfield
        exact hl

/-- The schema of the C3 scenario: a single valued demographics column and
a multi valued diagnosis column. -/
def colsScenario : List Column := [⟨"demographics", true⟩, ⟨"diagnosis", false⟩]

/-- The fetched row of the C3 scenario. -/
def rawScenario : RawRow :=
  { id := 3, fields := [("demographics", .scalar demoItem), ("diagnosis", .array [diagItem])] }

/-- The stored shape the C3 scenario expects. -/
def rowScenario : Row :=
  { id := 3, fields := [("demographics", [demoItem]), ("diagnosis", [diagItem, addItem 3])] }

/-- C3 witness: the scenario of the claim — loading one patient with a
scalar demographics and a one element diagnosis array stores the wrapped
scalar and the placeholder terminated array — plus the general theorem
applied to that stored row. -/
theorem c3_load_normalizes_witness :
    loadPatients colsScenario [rawScenario] = .ok [rowScenario] ∧
    (∃ raw, raw ∈ [rawScenario] ∧ rowScenario.id = raw.id ∧
      ∀ c ∈ colsScenario,
        (c.single = true → ∀ i, raw.fields.lookup c.name = some (.scalar i) →
          rowScenario.fields.lookup c.name = some [i]) ∧
        (c.single = false → ∀ xs, raw.fields.lookup c.name = some (.array xs) →
          rowScenario.fields.lookup c.name = some (xs ++ [addItem raw.id]))) :=
  ⟨rfl, c3_load_normalizes colsScenario [rawScenario] [rowScenario] (by decide) rfl
    rowScenario (by decide)⟩


theorem saveEdit_ok_location_rows (s : GridState) (out : SaveEditOut) (c : Column)
    (hc : jsIndex s.columns s.cix = some c) (hsingle : c.single = true)
    (hloc : c.name = "location")
    (h : saveEdit s = .ok out) : ∃ rows1, out.state.rows = orderByOrdering rows1 := by
  have hname : getCurrentColumnName s = .ok c.name := by
    simp [getCurrentColumnName, getColumnName, hc]
  unfold saveEdit at h
  rw [hname, exceptBind_ok] at h
  cases hrow : jsIndex s.rows s.rix with
  | none =>
    rw [hrow, exceptBind_error] at h
    simp at h
  | some row =>
    rw [hrow] at h
    rw [show ((match some row with
        | none => Except.error "TypeError: row is undefined"
        | some row => Except.ok row) : Except String Row) = Except.ok row from rfl,
      exceptBind_ok] at h
    cases hitems : row.fields.lookup c.name with
    | none =>
      rw [hitems, exceptBind_error] at h
      simp at h
    | some items =>
      rw [hitems] at h
      rw [show ((match (some items : Option (List Item)) with
          | none => Except.error "TypeError: column property is undefined"
          | some items => Except.ok items) : Except String (List Item)) = Except.ok items from rfl,
        exceptBind_ok] at h
      have hsing : ∀ rows2 rix2 iix2 st2 ed2 md2,
          isSingleColumn ⟨rows2, s.columns, rix2, s.cix, iix2, st2, ed2, md2⟩ s.cix = .ok true := by
        intro rows2 rix2 iix2 st2 ed2 md2
        simp [isSingleColumn, hc, hsingle]
      simp only [hsing, exceptBind_ok, hloc] at h
      simp only [if_true] at h
      cases hfind : getRowIxFromPatientId
          (orderByOrdering (updateRowFields s.rows s.rix "location"
            (jsSetElem items s.iix (clone s.editing)))) row.id with
      | error e =>
        rw [hfind, exceptBind_error] at h
        simp at h
      | ok ix =>
        rw [hfind, exceptBind_ok] at h
        simp only [Except.ok.injEq] at h
        subst h
        exact ⟨_, rfl⟩

/-! ### C2 -/

/-- C2: the row list is sorted by the (category, hospital, ward, bed) key
of `location[0]` — every adjacent pair (hence every pair) is ordered —
after each of the three operations that set `$scope.rows`: the initial
patient load, a successful add (which inserts the new row and re-sorts),
and a commit of a location edit (the single valued `location` column). -/
theorem c2_rows_sorted_invariant :
    (∀ columns raws l, loadPatients columns raws = .ok l → List.Sorted rowLE l) ∧
    (∀ s p s2, saveAddSuccess s p = .ok s2 → List.Sorted rowLE s2.rows) ∧
    (∀ s out c, jsIndex s.columns s.cix = some c → c.single = true →
      c.name = "location" → saveEdit s = .ok out → List.Sorted rowLE out.state.rows) := by
  refine ⟨?_, ?_, ?_⟩
  · intro columns raws l h
    unfold loadPatients at h
    cases hn : normalizeRows columns raws with
    | error e =>
      rw [hn, exceptBind_error] at h
      simp at h
    | ok rows0 =>
      rw [hn, exceptBind_ok] at h
      simp only [Except.ok.injEq] at h
      subst h
      exact orderByOrdering_sorted rows0
  · intro s p s2 h
    unfold saveAddSuccess at h
    cases hn : normalizeNewPatient s.columns p with
    | error e =>
      simp only [hn, exceptBind_error] at h
      simp at h
    | ok fields =>
      simp only [hn, exceptBind_ok] at h
      cases hf : getRowIxFromPatientId
          (orderByOrdering (s.rows ++ [{ id := p.id, fields := fields }])) p.id with
      | error e =>
        simp only [hf, exceptBind_error] at h
        simp at h
      | ok ix =>
        simp only [hf, exceptBind_ok, selectItem, Except.ok.injEq] at h
        subst h
        exact orderByOrdering_sorted _
  · intro s out c hc hsingle hloc h
    obtain ⟨rows1, hr⟩ := saveEdit_ok_location_rows s out c hc hsingle hloc h
    rw [hr]
    exact orderByOrdering_sorted rows1

/-- A fetched row for patient 7 (bed 1). -/
def rawSeven : RawRow :=
  { id := 7, fields := [("demographics", .scalar demoItem), ("location", .scalar locItemA)] }

/-- A fetched row for patient 9 (bed 2). -/
def rawNine : RawRow :=
  { id := 9, fields := [("demographics", .scalar demoItem), ("location", .scalar locItemB)] }

/-- A grid holding only patient 7, before an add. -/
def addBaseState : GridState :=
  { rows := [rowOne], columns := colsSingle, rix := 0, cix := 0, iix := 0,
    state := .normal, editing := {}, modal := none }

/-- The grid after the add of patient 9 succeeded. -/
def addResultState : GridState :=
  { addBaseState with rows := [rowOne, rowTwo], rix := 1, cix := 0, iix := 0 }

/-- Patient row 7 after its location was edited to bed 9. -/
def rowOneEdited : Row :=
  { id := 7, fields := [("demographics", [demoItem]), ("location", [locItemC])] }

/-- The result of committing the location edit of `c5state`. -/
def c5out : SaveEditOut :=
  { state :=
      { rows := [rowTwo, rowOneEdited], columns := colsSingle, rix := 1, cix := 1,
        iix := 0, state := .normal, editing := locItemC, modal := none }
    reqs := [.put "patient/7/location/"]
    pendingCreate := none }

/-- C2 witness: sortedness after the concrete load of two out of order
rows, after the concrete add of patient 9, and after the concrete location
edit of patient 7. -/
theorem c2_rows_sorted_invariant_witness :
    List.Sorted rowLE [rowOne, rowTwo] ∧
    List.Sorted rowLE addResultState.rows ∧
    List.Sorted rowLE c5out.state.rows :=
  ⟨c2_rows_sorted_invariant.1 colsSingle [rawNine, rawSeven] [rowOne, rowTwo] rfl,
   c2_rows_sorted_invariant.2.1 addBaseState rawNine addResultState rfl,
   c2_rows_sorted_invariant.2.2 c5state c5out locCol (by decide) rfl rfl rfl⟩

/-! ### C1 -/

/-- Every cell of the grid (each loaded row crossed with each schema
column) holds a nonempty item list — the shape the load normalization
establishes (singles wrapped, multis placeholder terminated). -/
def fieldsNonempty (s : GridState) : Bool :=
  s.rows.all (fun r => s.columns.all (fun c =>
    match r.fields.lookup c.name with
    | some items => decide (0 < items.length)
    | none => false))

/-- The navigation invariant: the cursor is inside
`[0, rowCount) × [0, columnCount) × [0, itemCount(rix, cix))` and every
cell holds at least one item. -/
def navInvB (s : GridState) : Bool :=
  decide (0 ≤ s.rix) && decide (s.rix < (s.rows.length : Int)) &&
  decide (0 ≤ s.cix) && decide (s.cix < (s.columns.length : Int)) &&
  decide (0 ≤ s.iix) &&
  (match getNumItems s s.rix s.cix with
   | .ok n => decide (s.iix < (n : Int))
   | .error _ => false) &&
  fieldsNonempty s

theorem navInvB_eq_true_iff (s : GridState) :
    navInvB s = true ↔ (0 ≤ s.rix ∧ s.rix < (s.rows.length : Int) ∧ 0 ≤ s.cix ∧
      s.cix < (s.columns.length : Int) ∧ 0 ≤ s.iix ∧
      (∃ n, getNumItems s s.rix s.cix = .ok n ∧ s.iix < (n : Int)) ∧
      fieldsNonempty s = true) := by
  unfold navInvB
  cases hn : getNumItems s s.rix s.cix with
  | error e => simp [hn]
  | ok n => simp [hn, and_assoc]

theorem getNumItems_pos (s : GridState) (r c : Int)
    (hf : fieldsNonempty s = true)
    (hr0 : 0 ≤ r) (hr : r < (s.rows.length : Int))
    (hc0 : 0 ≤ c) (hc : c < (s.columns.length : Int)) :
    ∃ n, getNumItems s r c = .ok n ∧ 0 < n := by
  have hrn : r.toNat < s.rows.length := by omega
  have hcn : c.toNat < s.columns.length := by omega
  have hrow : s.rows[r.toNat]? = some s.rows[r.toNat] := List.getElem?_eq_getElem hrn
  have hcol : s.columns[c.toNat]? = some s.columns[c.toNat] := List.getElem?_eq_getElem hcn
  have hrm : s.rows[r.toNat] ∈ s.rows := List.getElem_mem hrn
  have hcm : s.columns[c.toNat] ∈ s.columns := List.getElem_mem hcn
  unfold fieldsNonempty at hf
  rw [List.all_eq_true] at hf
  have h1 := hf _ hrm
  rw [List.all_eq_true] at h1
  have h2 := h1 _ hcm
  cases hl : (s.rows[r.toNat]).fields.lookup (s.columns[c.toNat]).name with
  | none =>
    rw [hl] at h2
    simp at h2
  | some items =>
    rw [hl] at h2
    simp at h2
    refine ⟨items.length, ?_, h2⟩
    unfold getNumItems
    rw [jsIndex_of_nonneg hc0, hcol]
    simp only [jsIndex_of_nonneg hr0, hrow, hl]

theorem handleDir_preserves (s : GridState) (k : Nat)
    (hk : k = 37 ∨ k = 72 ∨ k = 39 ∨ k = 76 ∨ k = 38 ∨ k = 75 ∨ k = 40 ∨ k = 74)
    (hinv : navInvB s = true) :
    ∃ s1, handleKeypressNormal s k = .ok s1 ∧ navInvB s1 = true ∧
      s1.rows = s.rows ∧ s1.columns = s.columns ∧ s1.state = s.state := by
  obtain ⟨h1, h2, h3, h4, h5, ⟨n, hn, h6⟩, h7⟩ := (navInvB_eq_true_iff s).mp hinv
  have hleft : ∃ s1, (Except.ok (goLeft s) : Except String GridState) = .ok s1 ∧
      navInvB s1 = true ∧ s1.rows = s.rows ∧ s1.columns = s.columns ∧ s1.state = s.state := by
    by_cases hc : s.cix > 0
    · have hgo : goLeft s = { s with cix := s.cix - 1, iix := 0 } := by
        simp only [goLeft, if_pos hc]
      obtain ⟨m, hm, hmpos⟩ := getNumItems_pos s s.rix (s.cix - 1) h7 h1 h2
        (by omega) (by omega)
      refine ⟨{ s with cix := s.cix - 1, iix := 0 }, by rw [hgo], ?_, rfl, rfl, rfl⟩
      rw [navInvB_eq_true_iff]
      dsimp only
      exact ⟨h1, h2, by omega, by omega, by omega, ⟨m, hm, by omega⟩, h7⟩
    · have hgo : goLeft s = s := by
        simp only [goLeft, if_neg hc]
      exact ⟨s, by rw [hgo], hinv, rfl, rfl, rfl⟩
  have hright : ∃ s1, (Except.ok (goRight s) : Except String GridState) = .ok s1 ∧
      navInvB s1 = true ∧ s1.rows = s.rows ∧ s1.columns = s.columns ∧ s1.state = s.state := by
    by_cases hc : s.cix < (s.columns.length : Int) - 1
    · have hgo : goRight s = { s with cix := s.cix + 1, iix := 0 } := by
        simp only [goRight, if_pos hc]
      obtain ⟨m, hm, hmpos⟩ := getNumItems_pos s s.rix (s.cix + 1) h7 h1 h2
        (by omega) (by omega)
      refine ⟨{ s with cix := s.cix + 1, iix := 0 }, by rw [hgo], ?_, rfl, rfl, rfl⟩
      rw [navInvB_eq_true_iff]
      dsimp only
      exact ⟨h1, h2, by omega, by omega, by omega, ⟨m, hm, by omega⟩, h7⟩
    · have hgo : goRight s = s := by
        simp only [goRight, if_neg hc]
      exact ⟨s, by rw [hgo], hinv, rfl, rfl, rfl⟩
  have hup : ∃ s1, goUp s = .ok s1 ∧ navInvB s1 = true ∧
      s1.rows = s.rows ∧ s1.columns = s.columns ∧ s1.state = s.state := by
    by_cases hi : s.iix > 0
    · have hgo : goUp s = .ok { s with iix := s.iix - 1 } := by
        simp only [goUp, if_pos hi]
      refine ⟨{ s with iix := s.iix - 1 }, hgo, ?_, rfl, rfl, rfl⟩
      rw [navInvB_eq_true_iff]
      dsimp only
      exact ⟨h1, h2, h3, h4, by omega, ⟨n, hn, by omega⟩, h7⟩
    · by_cases hr : s.rix > 0
      · obtain ⟨m, hm, hmpos⟩ := getNumItems_pos s (s.rix - 1) s.cix h7
          (by omega) (by omega) h3 h4
        have hgo : goUp s = .ok { s with rix := s.rix - 1, iix := (m : Int) - 1 } := by
          simp only [goUp, if_neg hi, if_pos hr, hm, exceptBind_ok]
        refine ⟨{ s with rix := s.rix - 1, iix := (m : Int) - 1 }, hgo, ?_, rfl, rfl, rfl⟩
        rw [navInvB_eq_true_iff]
        dsimp only
        exact ⟨by omega, by omega, h3, h4, by omega, ⟨m, hm, by omega⟩, h7⟩
      · have hgo : goUp s = .ok s := by
          simp only [goUp, if_neg hi, if_neg hr]
        exact ⟨s, hgo, hinv, rfl, rfl, rfl⟩
  have hdown : ∃ s1, goDown s = .ok s1 ∧ navInvB s1 = true ∧
      s1.rows = s.rows ∧ s1.columns = s.columns ∧ s1.state = s.state := by
    by_cases hi : s.iix < (n : Int) - 1
    · have hgo : goDown s = .ok { s with iix := s.iix + 1 } := by
        simp only [goDown, hn, exceptBind_ok, if_pos hi]
      refine ⟨{ s with iix := s.iix + 1 }, hgo, ?_, rfl, rfl, rfl⟩
      rw [navInvB_eq_true_iff]
      dsimp only
      exact ⟨h1, h2, h3, h4, by omega, ⟨n, hn, by omega⟩, h7⟩
    · by_cases hr : s.rix < (s.rows.length : Int) - 1
      · obtain ⟨m, hm, hmpos⟩ := getNumItems_pos s (s.rix + 1) s.cix h7
          (by omega) (by omega) h3 h4
        have hgo : goDown s = .ok { s with rix := s.rix + 1, iix := 0 } := by
          simp only [goDown, hn, exceptBind_ok, if_neg hi, if_pos hr]
        refine ⟨{ s with rix := s.rix + 1, iix := 0 }, hgo, ?_, rfl, rfl, rfl⟩
        rw [navInvB_eq_true_iff]
        dsimp only
        exact ⟨by omega, by omega, h3, h4, by omega, ⟨m, hm, by omega⟩, h7⟩
      · have hgo : goDown s = .ok s := by
          simp only [goDown, hn, exceptBind_ok, if_neg hi, if_neg hr]
        exact ⟨s, hgo, hinv, rfl, rfl, rfl⟩
  rcases hk with hk | hk | hk | hk | hk | hk | hk | hk <;> subst hk <;>
    simp only [handleKeypressNormal] <;> norm_num
  · simpa using hleft
  · simpa using hleft
  · simpa using hright
  · simpa using hright
  · simpa using hup
  · simpa using hup
  · simpa using hdown
  · simpa using hdown

/-- C1: iterating the normal mode keyboard handler over any sequence of
directional keys (arrow left/right/up/down or h/l/k/j), starting from a
cursor inside `[0, rowCount) × [0, columnCount) × [0, itemCount)` on a
grid whose cells all hold at least one item, never errors and keeps the
cursor inside those bounds — after every event, since every prefix of the
sequence is itself such a sequence — while the rows, the columns and the
interaction mode stay untouched. -/
theorem c1_navigation_in_bounds (s : GridState) (keys : List Nat)
    (hkeys : ∀ k ∈ keys, k = 37 ∨ k = 72 ∨ k = 39 ∨ k = 76 ∨ k = 38 ∨ k = 75 ∨
      k = 40 ∨ k = 74)
    (hinv : navInvB s = true) :
    ∃ s2, runKeys s keys = .ok s2 ∧ navInvB s2 = true ∧
      s2.rows = s.rows ∧ s2.columns = s.columns ∧ s2.state = s.state := by
  induction keys generalizing s with
  | nil => exact ⟨s, rfl, hinv, rfl, rfl, rfl⟩
  | cons k rest ih =>
    obtain ⟨s1, hs1, hinv1, hr1, hc1, hm1⟩ :=
      handleDir_preserves s k (hkeys k (by simp)) hinv
    obtain ⟨s2, hs2, hinv2, hr2, hc2, hm2⟩ :=
      ih s1 (fun k' hk' => hkeys k' (by simp [hk'])) hinv1
    refine ⟨s2, ?_, hinv2, by rw [hr2, hr1], by rw [hc2, hc1], by rw [hm2, hm1]⟩
    unfold runKeys
    rw [hs1, exceptBind_ok]
    exact hs2

/-- C1 witness: a concrete directional key sequence on the two patient
grid stays in bounds. -/
theorem c1_navigation_in_bounds_witness :
    ∃ s2, runKeys normalSingleState [40, 39, 38, 37, 74, 76, 75, 72] = .ok s2 ∧
      navInvB s2 = true ∧
      s2.rows = normalSingleState.rows ∧ s2.columns = normalSingleState.columns ∧
      s2.state = normalSingleState.state :=
  c1_navigation_in_bounds normalSingleState [40, 39, 38, 37, 74, 76, 75, 72]
    (by decide) (by decide)
